import Mathlib

/-!
Verification development for the geometric core of the `rustbeam` ray tracer
(`src/surfaces.rs`): the axis-aligned bounding-box slab test, and the
closed-form ray intersection routines for planes and spheres.

The repository's `crate::math` primitives (`Vector3`, `Ray`, `Interval`) are
not present under `src/`; they are modelled from the specification (sections 3
and 6).  Everything else is a direct shallow embedding of `src/surfaces.rs`,
with `f64` modelled by the real numbers (so IEEE rounding, NaN and signed
zeros are out of scope; `f64::NEG_INFINITY` / `f64::INFINITY`, which the slab
test stores in intervals, are modelled by `EReal`'s `⊥` / `⊤`).
-/

namespace Rustbeam

/-- Modelled from the spec: the external primitives library's 3-D vector type
`crate::math::Vector3` (not under `src/`): "a triple of real-valued
coordinates (x, y, z)". -/
structure Vector3 where
  x : ℝ
  y : ℝ
  z : ℝ

/-- Modelled from the spec: componentwise vector addition. -/
noncomputable def Vector3.add (a b : Vector3) : Vector3 :=
  ⟨a.x + b.x, a.y + b.y, a.z + b.z⟩

/-- Modelled from the spec: componentwise vector subtraction. -/
noncomputable def Vector3.sub (a b : Vector3) : Vector3 :=
  ⟨a.x - b.x, a.y - b.y, a.z - b.z⟩

/-- Modelled from the spec: scalar multiplication (both `scalar * vec` and
`vec * scalar` in the Rust source). -/
noncomputable def Vector3.smul (v : Vector3) (c : ℝ) : Vector3 :=
  ⟨c * v.x, c * v.y, c * v.z⟩

/-- Modelled from the spec: the dot product. -/
noncomputable def Vector3.dot (a b : Vector3) : ℝ :=
  a.x * b.x + a.y * b.y + a.z * b.z

/-- Modelled from the spec: `norm2`, the squared norm. -/
noncomputable def Vector3.norm2 (v : Vector3) : ℝ :=
  v.x ^ 2 + v.y ^ 2 + v.z ^ 2

/-- Modelled from the spec: the Euclidean norm. -/
noncomputable def Vector3.norm (v : Vector3) : ℝ :=
  Real.sqrt v.norm2

/-- Modelled from the spec: `normalize`, "division by norm; undefined /
NaN-producing for a zero vector".  Division by zero is total in Lean, so the
zero vector is mapped to the zero vector where Rust would produce NaNs. -/
noncomputable def Vector3.normalize (v : Vector3) : Vector3 :=
  ⟨v.x / v.norm, v.y / v.norm, v.z / v.norm⟩

/-- `Vector3::ones()`, the all-ones vector used by `Sphere::bounding_box`. -/
noncomputable def Vector3.ones : Vector3 :=
  ⟨1, 1, 1⟩

/-- Modelled from the spec: `crate::math::Ray` (not under `src/`):
"origin (Vector3) + direction (Vector3, not required to be unit length)". -/
structure Ray where
  origin : Vector3
  direction : Vector3

/-- Modelled from the spec: `crate::math::Interval` (not under `src/`): a
closed 1-D interval.  Endpoints live in `EReal` because the slab test seeds
the interval with `f64::NEG_INFINITY` / `f64::INFINITY`. -/
structure Interval where
  lo : EReal
  hi : EReal

/-- Modelled from the spec: `Interval::new`.  Spec section 3: "lo may exceed
hi at construction (the primitive library's `Interval::new` must therefore
normalize order internally, or the slab test must feed already-ordered
bounds)".  The slab test in `src/surfaces.rs` feeds unordered bounds
(`t0`, `t1` swap with the direction's sign), so the constructor is modelled
as normalizing the order internally. -/
noncomputable def Interval.new (a b : EReal) : Interval :=
  ⟨min a b, max a b⟩

/-- Modelled from the spec: `Interval::intersection`, "yielding `None` if
they do not overlap, else the narrower interval" (closed intervals, so
touching endpoints overlap). -/
noncomputable def Interval.intersection (i j : Interval) : Option Interval :=
  if max i.lo j.lo ≤ min i.hi j.hi then some ⟨max i.lo j.lo, min i.hi j.hi⟩ else none

/-- Modelled from the spec: `Interval::get_endpoints`, the "accessor for
`(lo, hi)`". -/
def Interval.get_endpoints (i : Interval) : EReal × EReal :=
  (i.lo, i.hi)

/-- Membership of a real parameter value in an interval (verification
vocabulary, not part of the source). -/
def Interval.memP (i : Interval) (t : ℝ) : Prop :=
  i.lo ≤ (t : EReal) ∧ (t : EReal) ≤ i.hi

/-- `struct BoundingBox` (src/surfaces.rs lines 6-10): two opposite corner
points; the documentation (not the code) asks the first corner to carry the
lowest coordinate values. -/
structure BoundingBox where
  corners : Vector3 × Vector3

/-- `BoundingBox::new` (src/surfaces.rs lines 14-18): stores the two supplied
corners as given (the `Into<Vector3>` generic is dropped). -/
def BoundingBox.new (first_corner second_corner : Vector3) : BoundingBox :=
  ⟨(first_corner, second_corner)⟩

/-- The per-axis slab interval of `BoundingBox::intersects`
(src/surfaces.rs lines 26-29, 36-38, 46-48):
`t0 = (corner0 - origin) / dir`, `t1 = (corner1 - origin) / dir`. -/
noncomputable def slabInterval (c0 c1 o d : ℝ) : Interval :=
  Interval.new (((c0 - o) / d : ℝ) : EReal) (((c1 - o) / d : ℝ) : EReal)

/-- One accumulation step of `BoundingBox::intersects` for the y and z axes
(src/surfaces.rs lines 34-54): when the direction component is nonzero the
running interval is intersected with the axis slab (an empty intersection is
the early `return false`, modelled as `none`); a zero component skips the
axis. -/
noncomputable def axisIntersect (acc : Interval) (c0 c1 o d : ℝ) : Option Interval :=
  if d ≠ 0 then acc.intersection (slabInterval c0 c1 o d) else some acc

/-- The initial running interval of `BoundingBox::intersects`
(src/surfaces.rs lines 24-32): the x-axis slab when `direction.x != 0.0`,
otherwise `Interval::new(NEG_INFINITY, INFINITY)`. -/
noncomputable def initialInterval (b : BoundingBox) (ray : Ray) : Interval :=
  if ray.direction.x ≠ 0 then
    slabInterval b.corners.1.x b.corners.2.x ray.origin.x ray.direction.x
  else Interval.new ⊥ ⊤

/-- `BoundingBox::intersects` (src/surfaces.rs lines 21-58): accumulate the
three axis slabs, then report a hit when either endpoint of the final
interval is non-negative. -/
noncomputable def BoundingBox.intersects (b : BoundingBox) (ray : Ray) : Bool :=
  match axisIntersect (initialInterval b ray)
      b.corners.1.y b.corners.2.y ray.origin.y ray.direction.y with
  | none => false
  | some t1 =>
    match axisIntersect t1 b.corners.1.z b.corners.2.z ray.origin.z ray.direction.z with
    | none => false
    | some t2 =>
      if (0 : EReal) ≤ t2.get_endpoints.1 ∨ (0 : EReal) ≤ t2.get_endpoints.2 then true
      else false

/-- `struct Plane` (src/surfaces.rs lines 70-73). -/
structure Plane where
  normal_vec : Vector3
  distance_from_origin : ℝ

/-- `Plane::new` (src/surfaces.rs lines 75-80): normalizes the supplied
normal vector (the `Into<Vector3>` generic is dropped). -/
noncomputable def Plane.new (normal_vec : Vector3) (distance_from_origin : ℝ) : Plane :=
  ⟨normal_vec.normalize, distance_from_origin⟩

/-- `<Plane as Surface>::closest_intersection` (src/surfaces.rs lines 84-99). -/
noncomputable def Plane.closest_intersection (p : Plane) (ray : Ray) : Option (ℝ × Vector3) :=
  if ray.direction.dot p.normal_vec = 0 then none
  else
    if 0 < (p.distance_from_origin - ray.origin.dot p.normal_vec) /
        (ray.direction.dot p.normal_vec) then
      some ((p.distance_from_origin - ray.origin.dot p.normal_vec) /
        (ray.direction.dot p.normal_vec), p.normal_vec)
    else none

/-- `struct Sphere` (src/surfaces.rs lines 102-106). -/
structure Sphere where
  center_pos : Vector3
  radius : ℝ

/-- `Sphere::new` (src/surfaces.rs lines 110-115). -/
def Sphere.new (center_pos : Vector3) (radius : ℝ) : Sphere :=
  ⟨center_pos, radius⟩

/-- `Sphere::bounding_box` (src/surfaces.rs lines 118-121):
`BoundingBox::new(center - radius * ones, center + radius * ones)`. -/
noncomputable def Sphere.bounding_box (s : Sphere) : BoundingBox :=
  BoundingBox.new (s.center_pos.sub (Vector3.ones.smul s.radius))
    (s.center_pos.add (Vector3.ones.smul s.radius))

/-- The local `origin_to_center` of `Sphere::closest_intersection`
(src/surfaces.rs line 128): `center_pos - ray.origin`. -/
noncomputable def sphereOc (s : Sphere) (ray : Ray) : Vector3 :=
  s.center_pos.sub ray.origin

/-- The local `origin_to_center_dot_dir` of `Sphere::closest_intersection`
(src/surfaces.rs line 129). -/
noncomputable def sphereProj (s : Sphere) (ray : Ray) : ℝ :=
  (sphereOc s ray).dot ray.direction

/-- The local `discriminant` of `Sphere::closest_intersection`
(src/surfaces.rs lines 130-131): `proj^2 - (norm2(oc) - radius^2)`. -/
noncomputable def sphereDisc (s : Sphere) (ray : Ray) : ℝ :=
  (sphereProj s ray) ^ 2 - ((sphereOc s ray).norm2 - s.radius ^ 2)

/-- The quadratic phase of `Sphere::closest_intersection`
(src/surfaces.rs lines 128-147), i.e. the body of the branch taken once the
bounding-box pre-test has passed: reject a negative discriminant
(`is_sign_negative`, which on reals is `< 0`), otherwise take the near root
`proj - sqrt(disc)` when it is positive, else the far root
`proj + sqrt(disc)` when that is positive, else reject; the reported normal
is `normalize(direction * distance - oc)`. -/
noncomputable def Sphere.quadraticIntersection (s : Sphere) (ray : Ray) :
    Option (ℝ × Vector3) :=
  if sphereDisc s ray < 0 then none
  else if sphereProj s ray - Real.sqrt (sphereDisc s ray) ≤ 0 then
    if sphereProj s ray + Real.sqrt (sphereDisc s ray) ≤ 0 then none
    else some (sphereProj s ray + Real.sqrt (sphereDisc s ray),
      ((ray.direction.smul (sphereProj s ray + Real.sqrt (sphereDisc s ray))).sub
        (sphereOc s ray)).normalize)
  else some (sphereProj s ray - Real.sqrt (sphereDisc s ray),
    ((ray.direction.smul (sphereProj s ray - Real.sqrt (sphereDisc s ray))).sub
      (sphereOc s ray)).normalize)

/-- `<Sphere as Surface>::closest_intersection` (src/surfaces.rs lines
125-151): bounding-box pre-test, then the quadratic phase. -/
noncomputable def Sphere.closest_intersection (s : Sphere) (ray : Ray) :
    Option (ℝ × Vector3) :=
  if (s.bounding_box).intersects ray then s.quadraticIntersection ray else none

/-- The componentwise corner ordering that the `BoundingBox` documentation
asks for (src/surfaces.rs lines 7-9). -/
def BoundingBox.ordered (b : BoundingBox) : Prop :=
  b.corners.1.x ≤ b.corners.2.x ∧ b.corners.1.y ≤ b.corners.2.y ∧
    b.corners.1.z ≤ b.corners.2.z

/-! ### Concrete scenarios used by the witnesses and counterexamples -/

/-- The spec's concrete scenario sphere: center `(0,0,5)`, radius `0.5`. -/
noncomputable def sA : Sphere := ⟨⟨0, 0, 5⟩, 0.5⟩

/-- The spec's concrete scenario ray: origin `(0,0,0)`, direction `(0,0,1)`. -/
noncomputable def rA : Ray := ⟨⟨0, 0, 0⟩, ⟨0, 0, 1⟩⟩

/-- A sphere whose center the ray origin occupies: center `(0,0,0)`, radius `2`. -/
noncomputable def sB : Sphere := ⟨⟨0, 0, 0⟩, 2⟩

/-- A ray starting at the origin along `z`. -/
noncomputable def rB : Ray := ⟨⟨0, 0, 0⟩, ⟨0, 0, 1⟩⟩

/-- Sphere for the non-unit-direction pre-test discrepancy: center `(0,0,10)`,
radius `1`. -/
noncomputable def sC : Sphere := ⟨⟨0, 0, 10⟩, 1⟩

/-- A ray with a non-unit direction that misses `sC`'s bounding box although
the source's quadratic, run on its own, would report a hit. -/
noncomputable def rC : Ray := ⟨⟨0, 0, 0⟩, ⟨5, 0, 10⟩⟩

/-- Sphere for the zero-vector `normalize` input: center `(0,0,3)`, radius `4`. -/
noncomputable def sD : Sphere := ⟨⟨0, 0, 3⟩, 4⟩

/-- A non-unit-direction ray whose code-selected hit parameter lands exactly
on `sD`'s center. -/
noncomputable def rD : Ray := ⟨⟨0, 0, 0⟩, ⟨0, 0, 3 / 5⟩⟩

/-- The spec's concrete plane scenario: plane `y = 0` built from normal
`(0,1,0)` and distance `0`. -/
noncomputable def planeP : Plane := Plane.new ⟨0, 1, 0⟩ 0

/-- The spec's concrete plane-scenario ray: origin `(0,5,0)`, direction
`(0,-1,0)`. -/
noncomputable def rayP : Ray := ⟨⟨0, 5, 0⟩, ⟨0, -1, 0⟩⟩

/-- A ray lying in the plane `y = 0`: origin on the plane, direction `(1,0,0)`. -/
noncomputable def rayQ : Ray := ⟨⟨0, 0, 0⟩, ⟨1, 0, 0⟩⟩

/-! ### Helper lemmas: intervals and the slab test -/

lemma ereal_coe_min (a b : ℝ) : ((min a b : ℝ) : EReal) = min (a : EReal) (b : EReal) :=
  EReal.coe_strictMono.monotone.map_min

lemma ereal_coe_max (a b : ℝ) : ((max a b : ℝ) : EReal) = max (a : EReal) (b : EReal) :=
  EReal.coe_strictMono.monotone.map_max

lemma Interval.memP_new {t0 t1 t : ℝ} (h1 : min t0 t1 ≤ t) (h2 : t ≤ max t0 t1) :
    (Interval.new (t0 : ℝ) (t1 : ℝ)).memP t := by
  constructor
  · show min (t0 : EReal) (t1 : EReal) ≤ (t : EReal)
    rw [← ereal_coe_min]
    exact EReal.coe_le_coe_iff.mpr h1
  · show (t : EReal) ≤ max (t0 : EReal) (t1 : EReal)
    rw [← ereal_coe_max]
    exact EReal.coe_le_coe_iff.mpr h2

lemma Interval.memP_bot_top (t : ℝ) : (Interval.new ⊥ ⊤).memP t := by
  constructor
  · exact le_trans (min_le_left _ _) bot_le
  · exact le_trans le_top (le_max_right _ _)

lemma Interval.intersection_of_memP {i j : Interval} {t : ℝ}
    (hi : i.memP t) (hj : j.memP t) :
    ∃ k, i.intersection j = some k ∧ k.memP t := by
  have hlo : max i.lo j.lo ≤ (t : EReal) := max_le hi.1 hj.1
  have hhi : (t : EReal) ≤ min i.hi j.hi := le_min hi.2 hj.2
  refine ⟨⟨max i.lo j.lo, min i.hi j.hi⟩, ?_, hlo, hhi⟩
  unfold Interval.intersection
  rw [if_pos (le_trans hlo hhi)]

lemma mem_slab_of_between {c0 c1 o d t : ℝ} (hd : d ≠ 0)
    (h1 : min c0 c1 ≤ o + t * d) (h2 : o + t * d ≤ max c0 c1) :
    min ((c0 - o) / d) ((c1 - o) / d) ≤ t ∧ t ≤ max ((c0 - o) / d) ((c1 - o) / d) := by
  rcases hd.lt_or_lt with hneg | hpos
  · rcases le_total c0 c1 with hc | hc
    · rw [min_eq_left hc] at h1
      rw [max_eq_right hc] at h2
      constructor
      · rw [min_le_iff]
        right
        rw [div_le_iff_of_neg hneg]
        linarith
      · rw [le_max_iff]
        left
        rw [le_div_iff_of_neg hneg]
        linarith
    · rw [min_eq_right hc] at h1
      rw [max_eq_left hc] at h2
      constructor
      · rw [min_le_iff]
        left
        rw [div_le_iff_of_neg hneg]
        linarith
      · rw [le_max_iff]
        right
        rw [le_div_iff_of_neg hneg]
        linarith
  · rcases le_total c0 c1 with hc | hc
    · rw [min_eq_left hc] at h1
      rw [max_eq_right hc] at h2
      constructor
      · rw [min_le_iff]
        left
        rw [div_le_iff₀ hpos]
        linarith
      · rw [le_max_iff]
        right
        rw [le_div_iff₀ hpos]
        linarith
    · rw [min_eq_right hc] at h1
      rw [max_eq_left hc] at h2
      constructor
      · rw [min_le_iff]
        right
        rw [div_le_iff₀ hpos]
        linarith
      · rw [le_max_iff]
        left
        rw [le_div_iff₀ hpos]
        linarith

lemma slabInterval_memP {c0 c1 o d t : ℝ} (hd : d ≠ 0)
    (h1 : min c0 c1 ≤ o + t * d) (h2 : o + t * d ≤ max c0 c1) :
    (slabInterval c0 c1 o d).memP t := by
  obtain ⟨ha, hb⟩ := mem_slab_of_between hd h1 h2
  exact Interval.memP_new ha hb

lemma axisIntersect_of_memP {acc : Interval} {c0 c1 o d t : ℝ} (hacc : acc.memP t)
    (hslab : d ≠ 0 → min c0 c1 ≤ o + t * d ∧ o + t * d ≤ max c0 c1) :
    ∃ k, axisIntersect acc c0 c1 o d = some k ∧ k.memP t := by
  by_cases hd : d = 0
  · refine ⟨acc, ?_, hacc⟩
    unfold axisIntersect
    rw [if_neg (fun h => h hd)]
  · obtain ⟨h1, h2⟩ := hslab hd
    obtain ⟨k, hk, hkm⟩ := Interval.intersection_of_memP hacc (slabInterval_memP hd h1 h2)
    refine ⟨k, ?_, hkm⟩
    unfold axisIntersect
    rw [if_pos hd]
    exact hk

/-- If the ray's point at some non-negative parameter `t` lies inside every
slab whose direction component is nonzero, then the slab test reports a
hit. -/
lemma intersects_of_forward_point (b : BoundingBox) (ray : Ray) (t : ℝ) (ht : 0 ≤ t)
    (hx : ray.direction.x ≠ 0 →
      min b.corners.1.x b.corners.2.x ≤ ray.origin.x + t * ray.direction.x ∧
        ray.origin.x + t * ray.direction.x ≤ max b.corners.1.x b.corners.2.x)
    (hy : ray.direction.y ≠ 0 →
      min b.corners.1.y b.corners.2.y ≤ ray.origin.y + t * ray.direction.y ∧
        ray.origin.y + t * ray.direction.y ≤ max b.corners.1.y b.corners.2.y)
    (hz : ray.direction.z ≠ 0 →
      min b.corners.1.z b.corners.2.z ≤ ray.origin.z + t * ray.direction.z ∧
        ray.origin.z + t * ray.direction.z ≤ max b.corners.1.z b.corners.2.z) :
    b.intersects ray = true := by
  have h0 : (initialInterval b ray).memP t := by
    unfold initialInterval
    by_cases hdx : ray.direction.x = 0
    · rw [if_neg (fun h => h hdx)]
      exact Interval.memP_bot_top t
    · rw [if_pos hdx]
      obtain ⟨h1, h2⟩ := hx hdx
      exact slabInterval_memP hdx h1 h2
  obtain ⟨k1, hk1, hm1⟩ := axisIntersect_of_memP h0 hy
  obtain ⟨k2, hk2, hm2⟩ := axisIntersect_of_memP hm1 hz
  have hfin : (0 : EReal) ≤ k2.get_endpoints.2 := by
    refine le_trans ?_ hm2.2
    rw [← EReal.coe_zero]
    exact EReal.coe_le_coe_iff.mpr ht
  unfold BoundingBox.intersects
  rw [hk1]
  dsimp only
  rw [hk2]
  dsimp only
  rw [if_pos (Or.inr hfin)]

/-! ### Helper lemmas: planes and spheres -/

lemma plane_some_spec {p : Plane} {ray : Ray} {t : ℝ} {n : Vector3}
    (h : p.closest_intersection ray = some (t, n)) :
    ray.direction.dot p.normal_vec ≠ 0 ∧ 0 < t ∧ n = p.normal_vec := by
  unfold Plane.closest_intersection at h
  split_ifs at h with h1 h2
  · simp only [Option.some.injEq, Prod.mk.injEq] at h
    exact ⟨h1, h.1 ▸ h2, h.2.symm⟩

lemma quadratic_some_spec {s : Sphere} {ray : Ray} {t : ℝ} {n : Vector3}
    (h : s.quadraticIntersection ray = some (t, n)) :
    0 ≤ sphereDisc s ray ∧ 0 < t ∧
      (t = sphereProj s ray - Real.sqrt (sphereDisc s ray) ∨
        t = sphereProj s ray + Real.sqrt (sphereDisc s ray)) ∧
      n = ((ray.direction.smul t).sub (sphereOc s ray)).normalize := by
  unfold Sphere.quadraticIntersection at h
  split_ifs at h with h1 h2 h3
  · simp only [Option.some.injEq, Prod.mk.injEq] at h
    refine ⟨not_lt.mp h1, h.1 ▸ not_le.mp h3, Or.inr h.1.symm, ?_⟩
    rw [← h.1]
    exact h.2.symm
  · simp only [Option.some.injEq, Prod.mk.injEq] at h
    refine ⟨not_lt.mp h1, h.1 ▸ not_le.mp h2, Or.inl h.1.symm, ?_⟩
    rw [← h.1]
    exact h.2.symm

lemma closest_eq_some {s : Sphere} {ray : Ray} {x : ℝ × Vector3}
    (h : s.closest_intersection ray = some x) :
    (s.bounding_box).intersects ray = true ∧ s.quadraticIntersection ray = some x := by
  unfold Sphere.closest_intersection at h
  split_ifs at h with hbb
  · exact ⟨hbb, h⟩

lemma norm2_smul_sub (d oc : Vector3) (t : ℝ) :
    ((d.smul t).sub oc).norm2 = t ^ 2 * d.norm2 - 2 * t * (oc.dot d) + oc.norm2 := by
  unfold Vector3.smul Vector3.sub Vector3.norm2 Vector3.dot
  ring

/-- For a unit-length direction, either quadratic root parametrizes a point
at distance `radius` from the sphere's center. -/
lemma root_on_sphere {s : Sphere} {ray : Ray} {t : ℝ}
    (hd : 0 ≤ sphereDisc s ray) (hu : ray.direction.norm2 = 1)
    (ht : t = sphereProj s ray - Real.sqrt (sphereDisc s ray) ∨
      t = sphereProj s ray + Real.sqrt (sphereDisc s ray)) :
    ((ray.direction.smul t).sub (sphereOc s ray)).norm2 = s.radius ^ 2 := by
  have hs : Real.sqrt (sphereDisc s ray) ^ 2 = sphereDisc s ray := Real.sq_sqrt hd
  have hdisc : sphereDisc s ray =
      (sphereProj s ray) ^ 2 - ((sphereOc s ray).norm2 - s.radius ^ 2) := rfl
  have hproj : (sphereOc s ray).dot ray.direction = sphereProj s ray := rfl
  rw [norm2_smul_sub, hu, hproj]
  rcases ht with h | h <;> rw [h] <;> nlinarith [hs, hdisc]

lemma sphere_box_corners (s : Sphere) :
    (s.bounding_box).corners.1 =
        Vector3.mk (s.center_pos.x - s.radius) (s.center_pos.y - s.radius)
          (s.center_pos.z - s.radius) ∧
      (s.bounding_box).corners.2 =
        Vector3.mk (s.center_pos.x + s.radius) (s.center_pos.y + s.radius)
          (s.center_pos.z + s.radius) := by
  unfold Sphere.bounding_box BoundingBox.new Vector3.sub Vector3.add Vector3.smul Vector3.ones
  constructor <;> simp

lemma norm2_pos {v : Vector3} (hv : v ≠ Vector3.mk 0 0 0) : 0 < v.norm2 := by
  by_contra hle
  push_neg at hle
  have h0 : v.norm2 = 0 :=
    le_antisymm hle (by unfold Vector3.norm2; positivity)
  unfold Vector3.norm2 at h0
  have hx : v.x = 0 := by nlinarith [sq_nonneg v.x, sq_nonneg v.y, sq_nonneg v.z]
  have hy : v.y = 0 := by nlinarith [sq_nonneg v.x, sq_nonneg v.y, sq_nonneg v.z]
  have hz : v.z = 0 := by nlinarith [sq_nonneg v.x, sq_nonneg v.y, sq_nonneg v.z]
  exact hv (by cases v; simp_all)

lemma normalize_norm_one {v : Vector3} (hv : 0 < v.norm2) : v.normalize.norm = 1 := by
  have hs : Real.sqrt v.norm2 ^ 2 = v.norm2 := Real.sq_sqrt hv.le
  have hspos : 0 < Real.sqrt v.norm2 := Real.sqrt_pos.mpr hv
  have h2 : v.normalize.norm2 = 1 := by
    show (v.x / v.norm) ^ 2 + (v.y / v.norm) ^ 2 + (v.z / v.norm) ^ 2 = 1
    unfold Vector3.norm
    rw [div_pow, div_pow, div_pow, div_add_div_same, div_add_div_same, hs]
    have : v.x ^ 2 + v.y ^ 2 + v.z ^ 2 = v.norm2 := rfl
    rw [this]
    exact div_self hv.ne'
  show Real.sqrt v.normalize.norm2 = 1
  rw [h2, Real.sqrt_one]

/-- If a coordinate is within squared distance `r^2` of a center coordinate,
it lies between `center - r` and `center + r` in `min`/`max` order,
whatever the sign of `r`. -/
lemma slab_bounds_of_sq_le {cx ox r : ℝ} (h : (cx - ox) ^ 2 ≤ r ^ 2) :
    min (cx - r) (cx + r) ≤ ox ∧ ox ≤ max (cx - r) (cx + r) := by
  rcases le_or_lt 0 r with hr | hr
  · constructor
    · refine le_trans (min_le_left _ _) ?_
      nlinarith
    · refine le_trans ?_ (le_max_right _ _)
      nlinarith
  · constructor
    · refine le_trans (min_le_right _ _) ?_
      nlinarith
    · refine le_trans ?_ (le_max_left _ _)
      nlinarith

lemma sqrt_quarter : Real.sqrt 0.25 = 0.5 := by
  rw [show (0.25 : ℝ) = 0.5 ^ 2 by norm_num, Real.sqrt_sq (by norm_num : (0:ℝ) ≤ 0.5)]

lemma normalize_e2 : (Vector3.mk (0:ℝ) 1 0).normalize = Vector3.mk 0 1 0 := by
  unfold Vector3.normalize Vector3.norm Vector3.norm2
  rw [show ((0:ℝ) ^ 2 + 1 ^ 2 + 0 ^ 2) = 1 by norm_num, Real.sqrt_one]
  norm_num

lemma normalize_zero_vec : (Vector3.mk (0:ℝ) 0 0).normalize = Vector3.mk 0 0 0 := by
  unfold Vector3.normalize Vector3.norm Vector3.norm2
  norm_num

lemma planeP_normal : planeP.normal_vec = Vector3.mk 0 1 0 := normalize_e2

lemma plane_eval : planeP.closest_intersection rayP = some (5, Vector3.mk 0 1 0) := by
  unfold Plane.closest_intersection
  rw [planeP_normal]
  have hd : rayP.direction.dot (Vector3.mk 0 1 0) = -1 := by
    unfold Vector3.dot rayP
    norm_num
  have ho : rayP.origin.dot (Vector3.mk 0 1 0) = 5 := by
    unfold Vector3.dot rayP
    norm_num
  have hdist : planeP.distance_from_origin = 0 := rfl
  rw [hd, ho, hdist]
  norm_num

lemma sA_bbox : (sA.bounding_box).intersects rA = true := by
  obtain ⟨hb1, hb2⟩ := sphere_box_corners sA
  apply intersects_of_forward_point (sA.bounding_box) rA 4.5 (by norm_num)
  · intro h
    exact absurd rfl h
  · intro h
    exact absurd rfl h
  · intro h
    rw [hb1, hb2]
    show min ((5:ℝ) - 0.5) (5 + 0.5) ≤ (0:ℝ) + 4.5 * 1 ∧ (0:ℝ) + 4.5 * 1 ≤ max ((5:ℝ) - 0.5) (5 + 0.5)
    norm_num

lemma sA_proj : sphereProj sA rA = 5 := by
  unfold sphereProj sphereOc Vector3.dot Vector3.sub sA rA
  norm_num

lemma sA_disc : sphereDisc sA rA = 0.25 := by
  unfold sphereDisc
  rw [sA_proj]
  unfold sphereOc Vector3.norm2 Vector3.sub sA rA
  norm_num

lemma sA_arg : (rA.direction.smul 4.5).sub (sphereOc sA rA) = Vector3.mk 0 0 (-0.5) := by
  unfold sphereOc Vector3.smul Vector3.sub sA rA
  norm_num

lemma normalize_sA_arg : (Vector3.mk (0:ℝ) 0 (-0.5)).normalize = Vector3.mk 0 0 (-1) := by
  unfold Vector3.normalize Vector3.norm Vector3.norm2
  rw [show ((0:ℝ) ^ 2 + 0 ^ 2 + (-0.5) ^ 2) = 0.25 by norm_num, sqrt_quarter]
  norm_num

lemma closest_sA : sA.closest_intersection rA = some (4.5, Vector3.mk 0 0 (-1)) := by
  unfold Sphere.closest_intersection
  rw [sA_bbox]
  unfold Sphere.quadraticIntersection
  rw [sA_disc, sA_proj, sqrt_quarter]
  rw [if_neg (by norm_num : ¬((0.25:ℝ) < 0)), if_neg (by norm_num : ¬((5:ℝ) - 0.5 ≤ 0))]
  rw [show (5:ℝ) - 0.5 = 4.5 by norm_num]
  rw [sA_arg, normalize_sA_arg]
  simp

lemma interval_new_coe {a b : ℝ} (h : a ≤ b) :
    Interval.new (a : ℝ) (b : ℝ) = ⟨(a : ℝ), (b : ℝ)⟩ := by
  unfold Interval.new
  rw [min_eq_left (EReal.coe_le_coe_iff.mpr h), max_eq_right (EReal.coe_le_coe_iff.mpr h)]

lemma intersection_coe_empty {a b c d : ℝ} (hab : a ≤ b) (hcd : c ≤ d) (h : b < c) :
    (Interval.new (a : ℝ) (b : ℝ)).intersection (Interval.new (c : ℝ) (d : ℝ)) = none := by
  rw [interval_new_coe hab, interval_new_coe hcd]
  unfold Interval.intersection
  rw [if_neg]
  intro hcon
  have h1 : (c : EReal) ≤ (b : EReal) :=
    le_trans (le_max_right _ _) (le_trans hcon (min_le_left _ _))
  exact absurd (EReal.coe_le_coe_iff.mp h1) (not_le.mpr h)

lemma sC_box : (sC.bounding_box).corners.1 = Vector3.mk (-1) (-1) 9 ∧
    (sC.bounding_box).corners.2 = Vector3.mk 1 1 11 := by
  obtain ⟨h1, h2⟩ := sphere_box_corners sC
  rw [h1, h2]
  constructor <;> (simp only [sC]; norm_num)

lemma sC_init : initialInterval (sC.bounding_box) rC =
    Interval.new ((-1/5 : ℝ) : EReal) ((1/5 : ℝ) : EReal) := by
  unfold initialInterval
  rw [if_pos (show rC.direction.x ≠ 0 from by show (5:ℝ) ≠ 0; norm_num)]
  rw [sC_box.1, sC_box.2]
  unfold slabInterval
  congr 1 <;> exact congrArg Real.toEReal (by show _ = _; norm_num [rC])

lemma sC_bbox_false : (sC.bounding_box).intersects rC = false := by
  unfold BoundingBox.intersects
  have hy : axisIntersect (initialInterval (sC.bounding_box) rC)
      (sC.bounding_box).corners.1.y (sC.bounding_box).corners.2.y
      rC.origin.y rC.direction.y = some (initialInterval (sC.bounding_box) rC) := by
    unfold axisIntersect
    rw [if_neg (fun h => h rfl)]
  rw [hy]
  dsimp only
  have hz : axisIntersect (initialInterval (sC.bounding_box) rC)
      (sC.bounding_box).corners.1.z (sC.bounding_box).corners.2.z
      rC.origin.z rC.direction.z = none := by
    unfold axisIntersect
    rw [if_pos (show rC.direction.z ≠ 0 from by show (10:ℝ) ≠ 0; norm_num)]
    have hslab : slabInterval (sC.bounding_box).corners.1.z (sC.bounding_box).corners.2.z
        rC.origin.z rC.direction.z =
        Interval.new ((9/10 : ℝ) : EReal) ((11/10 : ℝ) : EReal) := by
      rw [sC_box.1, sC_box.2]
      unfold slabInterval
      congr 1 <;> exact congrArg Real.toEReal (by show _ = _; norm_num [rC])
    rw [sC_init, hslab]
    exact intersection_coe_empty (by norm_num) (by norm_num) (by norm_num)
  rw [hz]

lemma sC_proj : sphereProj sC rC = 100 := by
  unfold sphereProj sphereOc Vector3.dot Vector3.sub sC rC
  norm_num

lemma sC_disc : sphereDisc sC rC = 9901 := by
  unfold sphereDisc
  rw [sC_proj]
  unfold sphereOc Vector3.norm2 Vector3.sub sC rC
  norm_num

lemma sC_quad_ne_none : sC.quadraticIntersection rC ≠ none := by
  unfold Sphere.quadraticIntersection
  rw [sC_disc, sC_proj]
  have hsq : Real.sqrt 9901 < 100 := by
    rw [show (100:ℝ) = Real.sqrt (100 ^ 2) from (Real.sqrt_sq (by norm_num)).symm]
    exact Real.sqrt_lt_sqrt (by norm_num) (by norm_num)
  rw [if_neg (by norm_num : ¬((9901:ℝ) < 0)), if_neg (by linarith : ¬((100:ℝ) - Real.sqrt 9901 ≤ 0))]
  simp

lemma sD_box : (sD.bounding_box).corners.1 = Vector3.mk (-4) (-4) (-1) ∧
    (sD.bounding_box).corners.2 = Vector3.mk 4 4 7 := by
  obtain ⟨h1, h2⟩ := sphere_box_corners sD
  rw [h1, h2]
  constructor <;> (simp only [sD]; norm_num)

lemma sD_bbox : (sD.bounding_box).intersects rD = true := by
  apply intersects_of_forward_point (sD.bounding_box) rD 0 le_rfl
  · intro h
    exact absurd rfl h
  · intro h
    exact absurd rfl h
  · intro h
    rw [sD_box.1, sD_box.2]
    show min ((-1:ℝ)) 7 ≤ (0:ℝ) + 0 * (3/5) ∧ (0:ℝ) + 0 * (3/5) ≤ max ((-1:ℝ)) 7
    norm_num

lemma sD_proj : sphereProj sD rD = 9/5 := by
  unfold sphereProj sphereOc Vector3.dot Vector3.sub sD rD
  norm_num

lemma sD_disc : sphereDisc sD rD = 256/25 := by
  unfold sphereDisc
  rw [sD_proj]
  unfold sphereOc Vector3.norm2 Vector3.sub sD rD
  norm_num

lemma sqrt_sD_disc : Real.sqrt (256/25) = 16/5 := by
  rw [show (256/25 : ℝ) = (16/5) ^ 2 by norm_num, Real.sqrt_sq (by norm_num : (0:ℝ) ≤ 16/5)]

lemma sD_arg : (rD.direction.smul 5).sub (sphereOc sD rD) = Vector3.mk 0 0 0 := by
  unfold sphereOc Vector3.smul Vector3.sub sD rD
  norm_num

lemma closest_sD : sD.closest_intersection rD = some (5, Vector3.mk 0 0 0) := by
  unfold Sphere.closest_intersection
  rw [sD_bbox]
  unfold Sphere.quadraticIntersection
  rw [sD_disc, sD_proj, sqrt_sD_disc]
  rw [if_neg (by norm_num : ¬((256/25:ℝ) < 0)), if_pos (by norm_num : (9/5:ℝ) - 16/5 ≤ 0),
    if_neg (by norm_num : ¬((9/5:ℝ) + 16/5 ≤ 0))]
  rw [show (9/5:ℝ) + 16/5 = 5 by norm_num]
  rw [sD_arg, normalize_zero_vec]
  simp

/-- If the point the ray reaches at a non-negative parameter `t` is at squared
distance at most `radius^2` from the sphere's center, the sphere's
bounding-box pre-test reports a hit. -/
lemma sphere_point_in_box {s : Sphere} {ray : Ray} {t : ℝ}
    (h : ((ray.direction.smul t).sub (sphereOc s ray)).norm2 ≤ s.radius ^ 2)
    (ht : 0 ≤ t) :
    (s.bounding_box).intersects ray = true := by
  have e : ((ray.direction.smul t).sub (sphereOc s ray)).norm2 =
      (t * ray.direction.x - (s.center_pos.x - ray.origin.x)) ^ 2 +
        (t * ray.direction.y - (s.center_pos.y - ray.origin.y)) ^ 2 +
        (t * ray.direction.z - (s.center_pos.z - ray.origin.z)) ^ 2 := rfl
  rw [e] at h
  apply intersects_of_forward_point _ _ t ht
  · intro _
    have hcomp : (s.center_pos.x - (ray.origin.x + t * ray.direction.x)) ^ 2 ≤
        s.radius ^ 2 := by
      nlinarith [sq_nonneg (t * ray.direction.y - (s.center_pos.y - ray.origin.y)),
        sq_nonneg (t * ray.direction.z - (s.center_pos.z - ray.origin.z))]
    have h3 := slab_bounds_of_sq_le hcomp
    rw [(sphere_box_corners s).1, (sphere_box_corners s).2]
    exact h3
  · intro _
    have hcomp : (s.center_pos.y - (ray.origin.y + t * ray.direction.y)) ^ 2 ≤
        s.radius ^ 2 := by
      nlinarith [sq_nonneg (t * ray.direction.x - (s.center_pos.x - ray.origin.x)),
        sq_nonneg (t * ray.direction.z - (s.center_pos.z - ray.origin.z))]
    have h3 := slab_bounds_of_sq_le hcomp
    rw [(sphere_box_corners s).1, (sphere_box_corners s).2]
    exact h3
  · intro _
    have hcomp : (s.center_pos.z - (ray.origin.z + t * ray.direction.z)) ^ 2 ≤
        s.radius ^ 2 := by
      nlinarith [sq_nonneg (t * ray.direction.x - (s.center_pos.x - ray.origin.x)),
        sq_nonneg (t * ray.direction.y - (s.center_pos.y - ray.origin.y))]
    have h3 := slab_bounds_of_sq_le hcomp
    rw [(sphere_box_corners s).1, (sphere_box_corners s).2]
    exact h3

/-- A ray origin strictly inside the sphere passes the bounding-box
pre-test. -/
lemma inside_sphere_bbox {s : Sphere} {ray : Ray}
    (hin : (sphereOc s ray).norm2 < s.radius ^ 2) :
    (s.bounding_box).intersects ray = true := by
  apply sphere_point_in_box (t := 0) _ le_rfl
  have e : ((ray.direction.smul 0).sub (sphereOc s ray)).norm2 =
      (sphereOc s ray).norm2 := by
    unfold Vector3.norm2 Vector3.smul Vector3.sub
    ring
  rw [e]
  exact hin.le

lemma closest_eq_quadratic_of_bbox {s : Sphere} {ray : Ray}
    (hbb : (s.bounding_box).intersects ray = true) :
    s.closest_intersection ray = s.quadraticIntersection ray := by
  unfold Sphere.closest_intersection
  rw [hbb, if_pos rfl]

/-! ### The claims -/

/-- C1 counterexample: `BoundingBox::new` does not derive the componentwise
minimum; called with first corner `(1,0,0)` and second corner `(0,0,0)` it
stores `(1,0,0)` as the first corner, which differs from the componentwise
minimum `(0,0,0)` of the two supplied points. -/
theorem bbox_new_not_componentwise_min :
    (BoundingBox.new (Vector3.mk 1 0 0) (Vector3.mk 0 0 0)).corners.1 ≠
      Vector3.mk (min (1:ℝ) 0) (min (0:ℝ) 0) (min (0:ℝ) 0) := by
  intro h
  have hx : (1 : ℝ) = min (1:ℝ) 0 := congrArg Vector3.x h
  rw [min_eq_right (by norm_num : (0:ℝ) ≤ 1)] at hx
  norm_num at hx

/-- C1 (amended): `BoundingBox::new` stores the caller-supplied corners
verbatim, performing no per-axis min/max derivation; the documented ordering
invariant instead holds at the sole internal call site, `Sphere::bounding_box`,
whenever the radius is non-negative. -/
theorem bbox_new_stores_corners_verbatim :
    (∀ a b : Vector3, (BoundingBox.new a b).corners = (a, b)) ∧
    (∀ s : Sphere, 0 ≤ s.radius → (s.bounding_box).ordered) := by
  constructor
  · intro a b
    rfl
  · intro s hr
    unfold BoundingBox.ordered
    rw [(sphere_box_corners s).1, (sphere_box_corners s).2]
    refine ⟨?_, ?_, ?_⟩ <;> (show _ - _ ≤ _ + _; linarith)

/-- C1 witness: the amended statement at concrete inputs. -/
theorem bbox_new_stores_corners_verbatim_witness :
    ((BoundingBox.new (Vector3.mk 3 4 5) (Vector3.mk 0 1 2)).corners =
      (Vector3.mk 3 4 5, Vector3.mk 0 1 2)) ∧
    (0:ℝ) ≤ 1 ∧ ((Sphere.mk (Vector3.mk 0 0 0) 1).bounding_box).ordered :=
  ⟨bbox_new_stores_corners_verbatim.1 _ _, by norm_num,
    bbox_new_stores_corners_verbatim.2 ⟨⟨0, 0, 0⟩, 1⟩ (by norm_num)⟩

/-- C2: under the bounding-box pre-test and a non-negative discriminant,
`Sphere::closest_intersection` reports the smallest strictly positive of the
two roots `proj ± sqrt(disc)` — the near root when positive, else the far
root when positive, else nothing — and for a ray origin strictly inside the
sphere it reports the far root, which is positive. -/
theorem sphere_smallest_positive_root (s : Sphere) (ray : Ray) :
    ((s.bounding_box).intersects ray = true → 0 ≤ sphereDisc s ray →
      Option.map Prod.fst (s.closest_intersection ray) =
        if 0 < sphereProj s ray - Real.sqrt (sphereDisc s ray) then
          some (sphereProj s ray - Real.sqrt (sphereDisc s ray))
        else if 0 < sphereProj s ray + Real.sqrt (sphereDisc s ray) then
          some (sphereProj s ray + Real.sqrt (sphereDisc s ray))
        else none) ∧
    ((sphereOc s ray).norm2 < s.radius ^ 2 →
      Option.map Prod.fst (s.closest_intersection ray) =
        some (sphereProj s ray + Real.sqrt (sphereDisc s ray)) ∧
      0 < sphereProj s ray + Real.sqrt (sphereDisc s ray)) := by
  constructor
  · intro hbb hd
    rw [closest_eq_quadratic_of_bbox hbb]
    unfold Sphere.quadraticIntersection
    rw [if_neg (not_lt.mpr hd)]
    rcases lt_or_le 0 (sphereProj s ray - Real.sqrt (sphereDisc s ray)) with h1 | h1
    · rw [if_neg (not_le.mpr h1), if_pos h1]
      rfl
    · rw [if_pos h1, if_neg (not_lt.mpr h1)]
      rcases lt_or_le 0 (sphereProj s ray + Real.sqrt (sphereDisc s ray)) with h2 | h2
      · rw [if_neg (not_le.mpr h2), if_pos h2]
        rfl
      · rw [if_pos h2, if_neg (not_lt.mpr h2)]
        rfl
  · intro hin
    have hd : 0 ≤ sphereDisc s ray := by
      unfold sphereDisc
      nlinarith [sq_nonneg (sphereProj s ray)]
    have hdpos : (sphereProj s ray) ^ 2 < sphereDisc s ray := by
      unfold sphereDisc
      linarith
    have habs : |sphereProj s ray| < Real.sqrt (sphereDisc s ray) := by
      rw [← Real.sqrt_sq_eq_abs]
      exact Real.sqrt_lt_sqrt (sq_nonneg _) hdpos
    have hnear : sphereProj s ray - Real.sqrt (sphereDisc s ray) ≤ 0 := by
      have := le_abs_self (sphereProj s ray)
      linarith
    have hfar : 0 < sphereProj s ray + Real.sqrt (sphereDisc s ray) := by
      have := neg_abs_le (sphereProj s ray)
      linarith
    refine ⟨?_, hfar⟩
    rw [closest_eq_quadratic_of_bbox (inside_sphere_bbox hin)]
    unfold Sphere.quadraticIntersection
    rw [if_neg (not_lt.mpr hd), if_pos hnear, if_neg (not_le.mpr hfar)]
    rfl

/-- C2 witness: the origin-inside-the-sphere case at a concrete sphere and
ray (`sB`, `rB`), together with concrete instances of the pre-test and
discriminant hypotheses. -/
theorem sphere_smallest_positive_root_witness :
    (sphereOc sB rB).norm2 < sB.radius ^ 2 ∧
    (Option.map Prod.fst (sB.closest_intersection rB) =
      some (sphereProj sB rB + Real.sqrt (sphereDisc sB rB)) ∧
      0 < sphereProj sB rB + Real.sqrt (sphereDisc sB rB)) := by
  have hin : (sphereOc sB rB).norm2 < sB.radius ^ 2 := by
    show ((0:ℝ) - 0) ^ 2 + ((0:ℝ) - 0) ^ 2 + ((0:ℝ) - 0) ^ 2 < 2 ^ 2
    norm_num
  exact ⟨hin, (sphere_smallest_positive_root sB rB).2 hin⟩

/-- C3 counterexample: for the positive-radius sphere `sC` and the
non-unit-direction ray `rC`, the bounding-box pre-test rejects while the
quadratic phase alone would report an intersection, so the two-phase
algorithm differs from the quadratic test alone. -/
theorem sphere_pretest_not_conservative :
    0 < sC.radius ∧
    (sC.bounding_box).intersects rC = false ∧
    sC.quadraticIntersection rC ≠ none ∧
    sC.closest_intersection rC ≠ sC.quadraticIntersection rC := by
  refine ⟨by show (0:ℝ) < 1; norm_num, sC_bbox_false, sC_quad_ne_none, ?_⟩
  have hnone : sC.closest_intersection rC = none := by
    unfold Sphere.closest_intersection
    rw [sC_bbox_false]
    rfl
  rw [hnone]
  exact fun h => sC_quad_ne_none h.symm

/-- C3 (amended): for a sphere with strictly positive radius and a ray with
unit-length direction, the bounding-box pre-test never changes the outcome:
the two-phase `Sphere::closest_intersection` equals the quadratic phase alone
as a function. -/
theorem sphere_pretest_conservative_unit_dir (s : Sphere) (ray : Ray)
    (_hr : 0 < s.radius) (hu : ray.direction.norm2 = 1) :
    s.closest_intersection ray = s.quadraticIntersection ray := by
  by_cases hbb : (s.bounding_box).intersects ray = true
  · exact closest_eq_quadratic_of_bbox hbb
  · simp only [Bool.not_eq_true] at hbb
    have hq : s.quadraticIntersection ray = none := by
      rcases hm : s.quadraticIntersection ray with _ | ⟨t, n⟩
      · rfl
      · exfalso
        obtain ⟨hd, ht, hroot, _⟩ := quadratic_some_spec hm
        have hon := root_on_sphere hd hu hroot
        have htrue := sphere_point_in_box (le_of_eq hon) ht.le
        rw [htrue] at hbb
        exact absurd hbb (by simp)
    unfold Sphere.closest_intersection
    rw [hbb, hq]
    rfl

/-- C3 witness: the amended refinement at the spec's concrete scenario. -/
theorem sphere_pretest_conservative_unit_dir_witness :
    0 < sA.radius ∧ rA.direction.norm2 = 1 ∧
    sA.closest_intersection rA = sA.quadraticIntersection rA := by
  have hr : 0 < sA.radius := by
    show (0:ℝ) < 0.5
    norm_num
  have hu : rA.direction.norm2 = 1 := by
    show (0:ℝ) ^ 2 + (0:ℝ) ^ 2 + (1:ℝ) ^ 2 = 1
    norm_num
  exact ⟨hr, hu, sphere_pretest_conservative_unit_dir sA rA hr hu⟩

/-- C4 counterexample: the `normalize` call inside
`Sphere::closest_intersection` can receive a zero-length vector: for the
sphere `sD` and the non-unit-direction ray `rD` an intersection is reported
at distance `5`, yet the vector handed to `normalize` —
`direction * distance - oc` — is the zero vector (so the reported "normal"
is the image of the zero vector under `normalize`). -/
theorem sphere_normalize_zero_input :
    sD.closest_intersection rD = some (5, Vector3.mk 0 0 0) ∧
    (rD.direction.smul 5).sub (sphereOc sD rD) = Vector3.mk 0 0 0 :=
  ⟨closest_sD, sD_arg⟩

/-- C4 (amended): no operation can fail — every division sits behind a
nonzero-divisor branch, the square root is taken only of a non-negative
discriminant, and `None` is the only negative outcome; the `normalize` call
in the sphere case receives a nonzero vector provided the ray direction has
unit length and the radius is nonzero (for non-unit directions it can
receive the zero vector). -/
theorem closest_intersection_guards :
    (∀ (p : Plane) (ray : Ray) (t : ℝ) (n : Vector3),
      p.closest_intersection ray = some (t, n) →
        ray.direction.dot p.normal_vec ≠ 0) ∧
    (∀ (s : Sphere) (ray : Ray) (t : ℝ) (n : Vector3),
      s.closest_intersection ray = some (t, n) → 0 ≤ sphereDisc s ray) ∧
    (∀ (s : Sphere) (ray : Ray) (t : ℝ) (n : Vector3),
      ray.direction.norm2 = 1 → s.radius ≠ 0 →
      s.closest_intersection ray = some (t, n) →
        (ray.direction.smul t).sub (sphereOc s ray) ≠ Vector3.mk 0 0 0) := by
  refine ⟨?_, ?_, ?_⟩
  · intro p ray t n h
    exact (plane_some_spec h).1
  · intro s ray t n h
    exact (quadratic_some_spec (closest_eq_some h).2).1
  · intro s ray t n hu hr h
    obtain ⟨hd, _, hroot, _⟩ := quadratic_some_spec (closest_eq_some h).2
    have hon := root_on_sphere hd hu hroot
    intro heq
    rw [heq] at hon
    have h0 : ((0:ℝ)) ^ 2 + 0 ^ 2 + 0 ^ 2 = s.radius ^ 2 := hon
    have : s.radius ^ 2 = 0 := by linarith [h0]
    exact hr (pow_eq_zero_iff two_ne_zero |>.mp this)

/-- C4 witness: all three guard statements exercised at concrete inputs. -/
theorem closest_intersection_guards_witness :
    planeP.closest_intersection rayP = some (5, Vector3.mk 0 1 0) ∧
    rayP.direction.dot planeP.normal_vec ≠ 0 ∧
    sA.closest_intersection rA = some (4.5, Vector3.mk 0 0 (-1)) ∧
    0 ≤ sphereDisc sA rA ∧
    rA.direction.norm2 = 1 ∧ sA.radius ≠ 0 ∧
    (rA.direction.smul 4.5).sub (sphereOc sA rA) ≠ Vector3.mk 0 0 0 := by
  refine ⟨plane_eval, closest_intersection_guards.1 _ _ _ _ plane_eval, closest_sA,
    closest_intersection_guards.2.1 _ _ _ _ closest_sA, ?_, ?_,
    closest_intersection_guards.2.2 _ _ _ _ ?_ ?_ closest_sA⟩
  · show (0:ℝ) ^ 2 + (0:ℝ) ^ 2 + (1:ℝ) ^ 2 = 1
    norm_num
  · show (0.5 : ℝ) ≠ 0
    norm_num
  · show (0:ℝ) ^ 2 + (0:ℝ) ^ 2 + (1:ℝ) ^ 2 = 1
    norm_num
  · show (0.5 : ℝ) ≠ 0
    norm_num

/-- C5: whenever `Plane::closest_intersection` or
`Sphere::closest_intersection` returns an intersection, the reported distance
is strictly positive (so a ray starting exactly on the surface is never
reported at distance zero). -/
theorem closest_intersection_distance_pos :
    (∀ (p : Plane) (ray : Ray) (t : ℝ) (n : Vector3),
      p.closest_intersection ray = some (t, n) → 0 < t) ∧
    (∀ (s : Sphere) (ray : Ray) (t : ℝ) (n : Vector3),
      s.closest_intersection ray = some (t, n) → 0 < t) := by
  constructor
  · intro p ray t n h
    exact (plane_some_spec h).2.1
  · intro s ray t n h
    exact (quadratic_some_spec (closest_eq_some h).2).2.1

/-- C5 witness: both conjuncts at concrete surfaces that do intersect. -/
theorem closest_intersection_distance_pos_witness :
    planeP.closest_intersection rayP = some (5, Vector3.mk 0 1 0) ∧ (0:ℝ) < 5 ∧
    sA.closest_intersection rA = some (4.5, Vector3.mk 0 0 (-1)) ∧ (0:ℝ) < 4.5 :=
  ⟨plane_eval, closest_intersection_distance_pos.1 _ _ _ _ plane_eval,
    closest_sA, closest_intersection_distance_pos.2 _ _ _ _ closest_sA⟩

/-- C6 counterexample: the normal returned by `Sphere::closest_intersection`
is not always unit length: for `sD` and the non-unit-direction ray `rD` the
reported normal is the zero vector, whose norm is `0`, not `1`. -/
theorem sphere_normal_not_unit :
    sD.closest_intersection rD = some (5, Vector3.mk 0 0 0) ∧
    (Vector3.mk (0:ℝ) 0 0).norm ≠ 1 := by
  refine ⟨closest_sD, ?_⟩
  show Real.sqrt ((0:ℝ) ^ 2 + 0 ^ 2 + 0 ^ 2) ≠ 1
  rw [show ((0:ℝ) ^ 2 + 0 ^ 2 + 0 ^ 2) = 0 by norm_num, Real.sqrt_zero]
  norm_num

/-- C6 (amended): returned normals are unit length — for a plane constructed
by `Plane::new` from a nonzero vector unconditionally, and for a sphere
provided the ray direction has unit length and the radius is nonzero. -/
theorem closest_intersection_normal_unit :
    (∀ (v : Vector3) (dist : ℝ) (ray : Ray) (t : ℝ) (n : Vector3),
      v ≠ Vector3.mk 0 0 0 →
      (Plane.new v dist).closest_intersection ray = some (t, n) → n.norm = 1) ∧
    (∀ (s : Sphere) (ray : Ray) (t : ℝ) (n : Vector3),
      ray.direction.norm2 = 1 → s.radius ≠ 0 →
      s.closest_intersection ray = some (t, n) → n.norm = 1) := by
  constructor
  · intro v dist ray t n hv h
    have hn : n = (Plane.new v dist).normal_vec := (plane_some_spec h).2.2
    rw [hn]
    exact normalize_norm_one (norm2_pos hv)
  · intro s ray t n hu hr h
    obtain ⟨hd, _, hroot, hn⟩ := quadratic_some_spec (closest_eq_some h).2
    have hon := root_on_sphere hd hu hroot
    rw [hn]
    apply normalize_norm_one
    rw [hon]
    exact pow_pos (abs_pos.mpr hr) 2 |>.trans_eq (sq_abs s.radius)

/-- C6 witness: both conjuncts at concrete intersecting inputs. -/
theorem closest_intersection_normal_unit_witness :
    (Vector3.mk (0:ℝ) 1 0 ≠ Vector3.mk 0 0 0) ∧
    planeP.closest_intersection rayP = some (5, Vector3.mk 0 1 0) ∧
    (Vector3.mk (0:ℝ) 1 0).norm = 1 ∧
    rA.direction.norm2 = 1 ∧ sA.radius ≠ 0 ∧
    sA.closest_intersection rA = some (4.5, Vector3.mk 0 0 (-1)) ∧
    (Vector3.mk (0:ℝ) 0 (-1)).norm = 1 := by
  have hv : Vector3.mk (0:ℝ) 1 0 ≠ Vector3.mk 0 0 0 := by
    intro h
    have := congrArg Vector3.y h
    norm_num at this
  have hu : rA.direction.norm2 = 1 := by
    show (0:ℝ) ^ 2 + (0:ℝ) ^ 2 + (1:ℝ) ^ 2 = 1
    norm_num
  have hr : sA.radius ≠ 0 := by
    show (0.5 : ℝ) ≠ 0
    norm_num
  exact ⟨hv, plane_eval,
    closest_intersection_normal_unit.1 _ 0 rayP 5 _ hv plane_eval,
    hu, hr, closest_sA,
    closest_intersection_normal_unit.2 sA rA 4.5 _ hu hr closest_sA⟩

/-- C7: a ray whose direction is perpendicular to the plane's stored normal
(`dot(direction, normal) == 0`) gets no intersection, including a ray lying
exactly in the plane. -/
theorem plane_parallel_ray_none (p : Plane) (ray : Ray)
    (h : ray.direction.dot p.normal_vec = 0) :
    p.closest_intersection ray = none := by
  unfold Plane.closest_intersection
  rw [if_pos h]

/-- C7 witness: the plane `y = 0` and a ray lying in it. -/
theorem plane_parallel_ray_none_witness :
    rayQ.direction.dot planeP.normal_vec = 0 ∧
    planeP.closest_intersection rayQ = none := by
  have h : rayQ.direction.dot planeP.normal_vec = 0 := by
    rw [planeP_normal]
    show (1:ℝ) * 0 + 0 * 1 + 0 * 0 = 0
    norm_num
  exact ⟨h, plane_parallel_ray_none planeP rayQ h⟩

/-- C8: a ray whose origin lies strictly inside an ordered bounding box
passes `BoundingBox::intersects`, whatever its direction (zero direction
components included). -/
theorem bbox_intersects_of_origin_inside (b : BoundingBox) (ray : Ray)
    (_hord : b.ordered)
    (hx0 : b.corners.1.x < ray.origin.x) (hx1 : ray.origin.x < b.corners.2.x)
    (hy0 : b.corners.1.y < ray.origin.y) (hy1 : ray.origin.y < b.corners.2.y)
    (hz0 : b.corners.1.z < ray.origin.z) (hz1 : ray.origin.z < b.corners.2.z) :
    b.intersects ray = true := by
  apply intersects_of_forward_point b ray 0 le_rfl
  · intro _
    constructor
    · calc min b.corners.1.x b.corners.2.x ≤ b.corners.1.x := min_le_left _ _
        _ ≤ ray.origin.x + 0 * ray.direction.x := by linarith
    · calc ray.origin.x + 0 * ray.direction.x ≤ b.corners.2.x := by linarith
        _ ≤ max b.corners.1.x b.corners.2.x := le_max_right _ _
  · intro _
    constructor
    · calc min b.corners.1.y b.corners.2.y ≤ b.corners.1.y := min_le_left _ _
        _ ≤ ray.origin.y + 0 * ray.direction.y := by linarith
    · calc ray.origin.y + 0 * ray.direction.y ≤ b.corners.2.y := by linarith
        _ ≤ max b.corners.1.y b.corners.2.y := le_max_right _ _
  · intro _
    constructor
    · calc min b.corners.1.z b.corners.2.z ≤ b.corners.1.z := min_le_left _ _
        _ ≤ ray.origin.z + 0 * ray.direction.z := by linarith
    · calc ray.origin.z + 0 * ray.direction.z ≤ b.corners.2.z := by linarith
        _ ≤ max b.corners.1.z b.corners.2.z := le_max_right _ _

/-- C8 witness: the unit box, an interior origin, and a direction with zero
components. -/
theorem bbox_intersects_of_origin_inside_witness :
    (BoundingBox.new (Vector3.mk 0 0 0) (Vector3.mk 1 1 1)).ordered ∧
    (BoundingBox.new (Vector3.mk 0 0 0) (Vector3.mk 1 1 1)).intersects
      (Ray.mk (Vector3.mk 0.5 0.5 0.5) (Vector3.mk 0 0 (-1))) = true := by
  have hord : (BoundingBox.new (Vector3.mk 0 0 0) (Vector3.mk 1 1 1)).ordered := by
    refine ⟨?_, ?_, ?_⟩ <;> (show (0:ℝ) ≤ 1; norm_num)
  refine ⟨hord, ?_⟩
  apply bbox_intersects_of_origin_inside _ _ hord <;>
    first
      | (show (0:ℝ) < 0.5; norm_num)
      | (show (0.5:ℝ) < 1; norm_num)

/-- C9: an axis with a zero ray-direction component contributes no constraint
to the slab test: the outcome of `BoundingBox::intersects` is invariant under
arbitrary changes to the box corners' and the ray origin's coordinates on
that axis, even when the origin lies outside the box's extent there. -/
theorem bbox_zero_direction_axis_unconstrained (b : BoundingBox) (ray : Ray) :
    (ray.direction.x = 0 → ∀ a0 a1 a2 : ℝ,
      (BoundingBox.mk (Vector3.mk a0 b.corners.1.y b.corners.1.z,
        Vector3.mk a1 b.corners.2.y b.corners.2.z)).intersects
          (Ray.mk (Vector3.mk a2 ray.origin.y ray.origin.z) ray.direction) =
        b.intersects ray) ∧
    (ray.direction.y = 0 → ∀ a0 a1 a2 : ℝ,
      (BoundingBox.mk (Vector3.mk b.corners.1.x a0 b.corners.1.z,
        Vector3.mk b.corners.2.x a1 b.corners.2.z)).intersects
          (Ray.mk (Vector3.mk ray.origin.x a2 ray.origin.z) ray.direction) =
        b.intersects ray) ∧
    (ray.direction.z = 0 → ∀ a0 a1 a2 : ℝ,
      (BoundingBox.mk (Vector3.mk b.corners.1.x b.corners.1.y a0,
        Vector3.mk b.corners.2.x b.corners.2.y a1)).intersects
          (Ray.mk (Vector3.mk ray.origin.x ray.origin.y a2) ray.direction) =
        b.intersects ray) := by
  refine ⟨?_, ?_, ?_⟩ <;> intro h a0 a1 a2 <;>
    unfold BoundingBox.intersects initialInterval axisIntersect <;>
    simp [h]

/-- C9 witness: the x-axis invariance at a concrete box and ray whose origin
lies outside the box's x-extent. -/
theorem bbox_zero_direction_axis_unconstrained_witness :
    (Vector3.mk (0:ℝ) 1 0).x = 0 ∧
    (BoundingBox.mk (Vector3.mk 42 0 0, Vector3.mk 43 1 1)).intersects
      (Ray.mk (Vector3.mk 44 0.5 0.5) (Vector3.mk 0 1 0)) =
    (BoundingBox.new (Vector3.mk 0 0 0) (Vector3.mk 1 1 1)).intersects
      (Ray.mk (Vector3.mk 5 0.5 0.5) (Vector3.mk 0 1 0)) :=
  ⟨rfl,
    (bbox_zero_direction_axis_unconstrained
      (BoundingBox.new (Vector3.mk 0 0 0) (Vector3.mk 1 1 1))
      (Ray.mk (Vector3.mk 5 0.5 0.5) (Vector3.mk 0 1 0))).1 rfl 42 43 44⟩

/-- C10: the spec's concrete scenario — sphere center `(0,0,5)`, radius
`0.5`, ray origin `(0,0,0)`, direction `(0,0,1)` — yields an intersection at
distance `4.5` with normal `(0,0,-1)`. -/
theorem sphere_concrete_scenario :
    sA.closest_intersection rA = some (4.5, Vector3.mk 0 0 (-1)) :=
  closest_sA

end Rustbeam
